import Mathlib

/-!
Verification of the request gateway in `src/mangadex/url_models.py`
(class `URLRequest`).

The embedding below translates the Python source into Lean:

* `JVal` models the JSON values produced by the external JSON library
  (`json.loads`); numbers are restricted to integers, which suffices for
  every property considered here.
* `Scalar` and `PVal` model the Python parameter values accepted by
  `request_url`: text, byte strings, integers, `None`, and sequences
  (lists/tuples) of scalars.  A parameter mapping is an association list
  in the dict's iteration order.
* `utf8EncodeCp` / `utf8DecodeCps` model Python's strict UTF-8 codec
  (`bytes.decode("utf-8")` / `str.encode("utf-8")`): overlong forms,
  surrogates and out-of-range sequences are rejected, exactly as the
  strict codec does.
* `quotePlusByte` / `urlencode` model `urllib.parse.urlencode` with its
  default `quote_via=quote_plus`: bytes that are ASCII alphanumerics or
  one of `_.-~` stay themselves, a space becomes `+`, and every other
  byte becomes `%XX` with uppercase hex.  A text value is quoted through
  its UTF-8 bytes, which is exactly what `quote` does for `str` input,
  so quoting a `str` and quoting its UTF-8 `bytes` are one definition.
* `request_url` mirrors `URLRequest.request_url`.  The transport
  (`requests.Session`) is a parameter mapping the issued wire request
  (`Send`) to a `Response`; the list of issued sends is returned next to
  the outcome so that "no network I/O happened" is expressible.  A
  `Response` carries the transport success flag `ok`
  (`requests.Response.ok`), the body decoded as UTF-8 text, and the
  result of handing that text to the external JSON library (`none` when
  JSON parsing fails).
* `_get_session` models the lazily created singleton
  `requests.Session`, as a state transition on `Option Session`; the
  fresh-identity argument stands for the identity of the object that
  would be allocated on creation.
-/

namespace Mangadex

/-- JSON values as produced by the external JSON library. -/
inductive JVal where
  | null
  | bool (b : Bool)
  | num (n : Int)
  | str (s : String)
  | arr (items : List JVal)
  | obj (fields : List (String × JVal))

/-- Scalar Python parameter values: text, byte strings, integers. -/
inductive Scalar where
  | str (s : String)
  | bytes (bs : List Nat)
  | int (n : Int)
deriving DecidableEq

/-- A Python parameter value: `None`, a scalar, or a list/tuple of scalars. -/
inductive PVal where
  | none
  | scalar (v : Scalar)
  | seq (items : List Scalar)
deriving DecidableEq

/-! ### UTF-8 (Python's strict codec) -/

/-- UTF-8 encoding of one code point (div/mod form of the standard bit layout). -/
def utf8EncodeCp (n : Nat) : List Nat :=
  if n < 128 then [n]
  else if n < 2048 then [192 + n / 64, 128 + n % 64]
  else if n < 65536 then [224 + n / 4096, 128 + n / 64 % 64, 128 + n % 64]
  else [240 + n / 262144, 128 + n / 4096 % 64, 128 + n / 64 % 64, 128 + n % 64]

/-- UTF-8 encoding of a string, as `str.encode` produces it. -/
def utf8Encode (s : String) : List Nat :=
  (s.data.map (fun c => utf8EncodeCp c.toNat)).flatten

/-- Strict UTF-8 decoding, one byte at a time.  The state is `none` when
a lead byte is expected, and `some (need, acc, lo)` in the middle of a
multi-byte sequence: `need` continuation bytes are still expected, `acc`
holds the bits read so far, and `lo` is the smallest code point the
sequence's length may legally produce (the overlong bound).  The lead
ranges (`C2..DF`, `E0..EF`, `F0..F4`) and the final range check (not
below `lo`, not a surrogate, at most `0x10FFFF`) make this exactly the
set of byte strings Python's strict `bytes.decode("utf-8")` accepts. -/
def utf8DecodeAux : Option (Nat × Nat × Nat) → List Nat → Option (List Nat)
  | none, [] => some []
  | some _, [] => none
  | none, b :: bs =>
    if b < 128 then (utf8DecodeAux none bs).map (fun r => b :: r)
    else if 194 ≤ b ∧ b < 224 then utf8DecodeAux (some (1, b - 192, 128)) bs
    else if 224 ≤ b ∧ b < 240 then utf8DecodeAux (some (2, b - 224, 2048)) bs
    else if 240 ≤ b ∧ b < 245 then utf8DecodeAux (some (3, b - 240, 65536)) bs
    else none
  | some (need, acc, lo), b :: bs =>
    if 128 ≤ b ∧ b < 192 then
      if need ≤ 1 then
        if lo ≤ acc * 64 + (b - 128) ∧ acc * 64 + (b - 128) < 1114112 ∧
            ¬ (55296 ≤ acc * 64 + (b - 128) ∧ acc * 64 + (b - 128) < 57344) then
          (utf8DecodeAux none bs).map (fun r => (acc * 64 + (b - 128)) :: r)
        else none
      else utf8DecodeAux (some (need - 1, acc * 64 + (b - 128), lo)) bs
    else none

/-- Strict UTF-8 decoding of a byte string to code points. -/
def utf8DecodeCps (bs : List Nat) : Option (List Nat) :=
  utf8DecodeAux none bs

/-- Strict UTF-8 decoding to a string (`bytes.decode("utf-8")`). -/
def utf8DecodeStr (bs : List Nat) : Option String :=
  (utf8DecodeCps bs).map (fun cps => String.mk (cps.map Char.ofNat))

/-! ### `urllib.parse.urlencode` with the default `quote_plus` -/

/-- The bytes `quote` never escapes: ASCII alphanumerics and `_.-~`. -/
def safeByte (b : Nat) : Bool :=
  (65 ≤ b && b ≤ 90) || (97 ≤ b && b ≤ 122) || (48 ≤ b && b ≤ 57) ||
    b == 95 || b == 46 || b == 45 || b == 126

/-- One of the two uppercase hex digits of a percent escape. -/
def hexDigitChar (n : Nat) : Char :=
  if n < 10 then Char.ofNat (48 + n) else Char.ofNat (55 + n)

/-- `quote_plus` on a single byte: safe bytes stay, space becomes `+`,
everything else becomes a `%XX` escape with uppercase hex. -/
def quotePlusByte (b : Nat) : String :=
  if safeByte b then String.singleton (Char.ofNat b)
  else if b == 32 then "+"
  else String.mk ['%', hexDigitChar (b / 16 % 16), hexDigitChar (b % 16)]

/-- `quote_plus` on a byte string. -/
def quotePlusBytes (bs : List Nat) : String :=
  String.join (bs.map quotePlusByte)

/-- How `urlencode` renders one scalar value: byte strings are quoted
directly, text is quoted through its UTF-8 bytes, an integer goes
through `str()` first. -/
def scalarQuote : Scalar → String
  | Scalar.str s => quotePlusBytes (utf8Encode s)
  | Scalar.bytes bs => quotePlusBytes bs
  | Scalar.int n => quotePlusBytes (utf8Encode (toString n))

/-- One `key=value` item of the encoded query string. -/
def pairString (p : String × Scalar) : String :=
  quotePlusBytes (utf8Encode p.1) ++ "=" ++ scalarQuote p.2

/-- `urlencode(params_tuple)`: items joined with `&`. -/
def urlencode (pairs : List (String × Scalar)) : String :=
  String.intercalate "&" (pairs.map pairString)

/-! ### `URLRequest.__encode_parameters` and `URLRequest.__build_url` -/

/-- The pairs contributed by one mapping entry (the loop body of
`__encode_parameters`): a `None` value is skipped, a list/tuple value
expands to one pair per element with the same key, a scalar value gives
one pair. -/
def expandEntry : String × PVal → List (String × Scalar)
  | (_, PVal.none) => []
  | (k, PVal.scalar v) => [(k, v)]
  | (k, PVal.seq items) => items.map (fun item => (k, item))

/-- `__encode_parameters` up to the final `urlencode`: the ordered
`params_tuple` list built by iterating the mapping. -/
def encodeParameters : List (String × PVal) → List (String × Scalar)
  | [] => []
  | e :: rest => expandEntry e ++ encodeParameters rest

/-- `__build_url`: the URL is augmented whenever the parameter mapping
itself is non-empty (`if params` in the source tests the dict, not the
encoded pair list). -/
def buildUrl (url : String) (params : List (String × PVal)) : String :=
  if params.isEmpty then url
  else url ++ "?" ++ urlencode (encodeParameters params)

/-! ### Parameter normalization (lines 48-50 of the source) -/

/-- Decoding of one top-level parameter value: a byte-string value is
decoded as UTF-8 (which can fail, raising `UnicodeDecodeError` in
Python); every other value, including byte strings inside sequences, is
left untouched. -/
def decodeVal : PVal → Option PVal
  | PVal.scalar (Scalar.bytes bs) =>
    (utf8DecodeStr bs).map (fun s => PVal.scalar (Scalar.str s))
  | v => some v

/-- The dict comprehension of lines 49-50: decode every top-level
byte-string value.  (The `any(...)` guard in the source only skips the
comprehension when it would be the identity, so mapping `decodeVal`
over every entry is the same function.) -/
def normalizeParams : List (String × PVal) → Option (List (String × PVal))
  | [] => some []
  | (k, v) :: rest =>
    match decodeVal v, normalizeParams rest with
    | some v1, some rest1 => some ((k, v1) :: rest1)
    | _, _ => none

/-! ### Response interpretation -/

/-- A wire request as handed to the session, recording which URL,
payload, headers and timeout were sent.  `get` carries the full URL
built by `__build_url`; `post` sends the params as form data; `put`
sends them through the transport's parameter channel; `del` ignores
them. -/
inductive Send where
  | get (fullUrl : String) (headers : List (String × String)) (timeout : Nat)
  | post (url : String) (data : List (String × PVal))
      (headers : List (String × String)) (timeout : Nat)
  | del (url : String) (headers : List (String × String)) (timeout : Nat)
  | put (url : String) (ps : List (String × PVal))
      (headers : List (String × String)) (timeout : Nat)

/-- The transport's answer: `ok` is `requests.Response.ok` (status below
400, with 2xx in particular), `content` is the body decoded as UTF-8
text, and `parsed` is the external JSON library's verdict on that text
(`none` when it is not valid JSON). -/
structure Response where
  ok : Bool
  content : String
  parsed : Option JVal

/-- A successful result of `request_url`: parsed JSON, or raw text. -/
inductive Outcome where
  | structured (v : JVal)
  | text (s : String)

/-- The failures `request_url` can raise.  `invalidMethod` is the
`ValueError` for an unsupported verb (carrying the uppercased method),
`unicodeDecode` is the `UnicodeDecodeError` from decoding a byte-string
parameter, `apiErrorResponse` is `ApiError(response)` for a non-ok
status, `apiErrorEmbedded` is `ApiError(...)` for an error signalled
inside a successful response's JSON body. -/
inductive Err where
  | invalidMethod (m : String)
  | unicodeDecode
  | apiErrorResponse (r : Response)
  | apiErrorEmbedded (e : JVal)

/-- `data.get(k)` on a JSON object (JSON objects have unique keys; the
association list keeps the dict's order). -/
def jsonGet (fields : List (String × JVal)) (k : String) : Option JVal :=
  match fields.find? (fun f => f.1 == k) with
  | some f => some f.2
  | none => none

/-- `data.get("result") == "error"`: only a string value compares equal. -/
def resultIsError (fields : List (String × JVal)) : Bool :=
  match jsonGet fields "result" with
  | some (JVal.str s) => s == "error"
  | _ => false

/-- `"error" in data`: key membership. -/
def hasErrorKey (fields : List (String × JVal)) : Bool :=
  fields.any (fun f => f.1 == "error")

/-- `data.get("errors", "Erro desconhecido")`: the `errors` field when
present, else the generic unknown-error marker string. -/
def getErrors (fields : List (String × JVal)) : JVal :=
  match jsonGet fields "errors" with
  | some v => v
  | none => JVal.str "Erro desconhecido"

/-- Line 105-106 of the source: a non-empty JSON array is replaced by
its first element before the error inspection. -/
def firstIfList : JVal → JVal
  | JVal.arr (x :: _) => x
  | v => v

/-- `URLRequest._check_api_error`, as a function returning the payload
of the `ApiError` it raises, or `none` when it does not raise. -/
def check_api_error (data : JVal) : Option JVal :=
  match firstIfList data with
  | JVal.obj fields =>
    if resultIsError fields || hasErrorKey fields then some (getErrors fields)
    else none
  | _ => none

/-- `URLRequest.__parse_data`: when the body is valid JSON, check for an
embedded error and otherwise return the parsed value; when JSON parsing
fails, return the decoded text unchanged. -/
def parse_data (content : String) (parsed : Option JVal) : Except Err Outcome :=
  match parsed with
  | some data =>
    match check_api_error data with
    | some e => Except.error (Err.apiErrorEmbedded e)
    | none => Except.ok (Outcome.structured data)
  | none => Except.ok (Outcome.text content)

/-- Lines 70-73 of the source: a non-ok status raises
`ApiError(response)`, otherwise the body is interpreted. -/
def handleResponse (resp : Response) : Except Err Outcome :=
  if resp.ok then parse_data resp.content resp.parsed
  else Except.error (Err.apiErrorResponse resp)

/-- `str.upper()` restricted to its ASCII behavior (HTTP method names are
ASCII): lowercase ASCII letters are folded to uppercase, everything else
is unchanged. -/
def upperChar (c : Char) : Char :=
  if 97 ≤ c.toNat ∧ c.toNat ≤ 122 then Char.ofNat (c.toNat - 32) else c

/-- `method.upper()` (line 52 of the source). -/
def pyUpper (s : String) : String :=
  String.mk (s.data.map upperChar)

/-- The method dispatch of lines 55-65: which wire request the uppercased
method produces, `none` for an unsupported verb. -/
def dispatch (url : String) (method : String) (ps : List (String × PVal))
    (headers : List (String × String)) (timeout : Nat) : Option Send :=
  let m := pyUpper method
  if m == "GET" then some (Send.get (buildUrl url ps) headers timeout)
  else if m == "POST" then some (Send.post url ps headers timeout)
  else if m == "DELETE" then some (Send.del url headers timeout)
  else if m == "PUT" then some (Send.put url ps headers timeout)
  else none

/-- `URLRequest.request_url`.  The transport is passed as a function from
the issued wire request to the response; the returned list is the trace
of sends actually issued (empty when the call fails before any network
I/O).  A `params=None` Python call is the empty mapping here. -/
def request_url (url : String) (method : String) (params : List (String × PVal))
    (headers : List (String × String)) (timeout : Nat)
    (transport : Send → Response) : List Send × Except Err Outcome :=
  match normalizeParams params with
  | none => ([], Except.error Err.unicodeDecode)
  | some ps =>
    match dispatch url method ps headers timeout with
    | none => ([], Except.error (Err.invalidMethod (pyUpper method)))
    | some sd => ([sd], handleResponse (transport sd))

/-- Is the result the `ValueError` for an unsupported method? -/
def isInvalidMethodErr : Except Err Outcome → Bool
  | Except.error (Err.invalidMethod _) => true
  | _ => false

/-- Is a JSON value a scalar (neither an object nor an array)? -/
def isScalar : JVal → Bool
  | JVal.obj _ => false
  | JVal.arr _ => false
  | _ => true

/-! ### The session singleton (`URLRequest._get_session`) -/

/-- The adapter configuration mounted on the session. -/
structure HTTPAdapter where
  pool_connections : Nat
  pool_maxsize : Nat
  max_retries : Nat
  pool_block : Bool
deriving DecidableEq

/-- A `requests.Session` as far as this class observes it: an identity
and the adapters mounted per scheme. -/
structure Session where
  sid : Nat
  mounts : List (String × HTTPAdapter)
deriving DecidableEq

/-- The session built on first use: one adapter with the fixed pool
parameters, mounted identically for both schemes. -/
def newSession (sid : Nat) : Session :=
  { sid := sid,
    mounts :=
      [("http://", ⟨100, 100, 3, true⟩), ("https://", ⟨100, 100, 3, true⟩)] }

/-- `URLRequest._get_session` as a transition on the class attribute
`_session : Option Session`: create the session on first use, reuse it
afterwards.  `fresh` is the identity the newly allocated object would
get. -/
def _get_session (st : Option Session) (fresh : Nat) : Session × Option Session :=
  match st with
  | some s => (s, some s)
  | none => (newSession fresh, some (newSession fresh))

/-! ### Derived views used by the relational claims -/

/-- The query string the gateway produces for a parameter mapping:
normalize the top-level byte strings, flatten, urlencode.  `none` when
normalization raises `UnicodeDecodeError`. -/
def queryOutput (params : List (String × PVal)) : Option String :=
  (normalizeParams params).map (fun q => urlencode (encodeParameters q))

/-- The same, kept as the list of `key=value` items before joining. -/
def queryStrings (params : List (String × PVal)) : Option (List String) :=
  (normalizeParams params).map (fun q => (encodeParameters q).map pairString)

/-- Replacement of a byte-string scalar by its UTF-8-decoded text
equivalent (the text whose UTF-8 encoding is the byte string); any
scalar may also be kept unchanged. -/
inductive ScalarRel : Scalar → Scalar → Prop
  | refl (v : Scalar) : ScalarRel v v
  | bytes (s : String) : ScalarRel (Scalar.bytes (utf8Encode s)) (Scalar.str s)

/-- Pointwise replacement inside one parameter value: also under
sequence elements. -/
inductive PValRel : PVal → PVal → Prop
  | none : PValRel PVal.none PVal.none
  | scalar {a b : Scalar} : ScalarRel a b → PValRel (PVal.scalar a) (PVal.scalar b)
  | seq {xs ys : List Scalar} : List.Forall₂ ScalarRel xs ys →
      PValRel (PVal.seq xs) (PVal.seq ys)

/-- Pointwise replacement across a whole parameter mapping. -/
def ParamsRel (p q : List (String × PVal)) : Prop :=
  List.Forall₂ (fun a b => a.1 = b.1 ∧ PValRel a.2 b.2) p q

/-! ## Helper lemmas -/

/-- Decoding one ASCII byte. -/
theorem utf8DecodeCps_cons1 {b0 : Nat} {bs cps : List Nat} (h0 : b0 < 128)
    (h : utf8DecodeCps bs = some cps) :
    utf8DecodeCps (b0 :: bs) = some (b0 :: cps) := by
  unfold utf8DecodeCps at h ⊢
  simp [utf8DecodeAux, h0, h]

/-- Decoding one two-byte sequence. -/
theorem utf8DecodeCps_cons2 {b0 b1 : Nat} {bs cps : List Nat} {n : Nat}
    (h0 : 194 ≤ b0) (h0b : b0 < 224) (h1 : 128 ≤ b1) (h1b : b1 < 192)
    (hn : (b0 - 192) * 64 + (b1 - 128) = n) (hlo : 128 ≤ n) (hhi : n < 2048)
    (h : utf8DecodeCps bs = some cps) :
    utf8DecodeCps (b0 :: b1 :: bs) = some (n :: cps) := by
  have e0 : ¬ b0 < 128 := by omega
  unfold utf8DecodeCps at h ⊢
  simp only [utf8DecodeAux, e0, if_false, if_pos (And.intro h0 h0b), ite_false,
    if_pos (And.intro h1 h1b), if_pos (Nat.le_refl 1), hn]
  rw [if_pos (by omega), h]
  rfl

/-- Decoding one three-byte sequence. -/
theorem utf8DecodeCps_cons3 {b0 b1 b2 : Nat} {bs cps : List Nat} {n : Nat}
    (h0 : 224 ≤ b0) (h0b : b0 < 240)
    (h1 : 128 ≤ b1) (h1b : b1 < 192) (h2 : 128 ≤ b2) (h2b : b2 < 192)
    (hn : ((b0 - 224) * 64 + (b1 - 128)) * 64 + (b2 - 128) = n)
    (hr : 2048 ≤ n) (hrb : n < 65536) (hs : ¬ (55296 ≤ n ∧ n < 57344))
    (h : utf8DecodeCps bs = some cps) :
    utf8DecodeCps (b0 :: b1 :: b2 :: bs) = some (n :: cps) := by
  have e0 : ¬ b0 < 128 := by omega
  have e1 : ¬ (194 ≤ b0 ∧ b0 < 224) := by omega
  unfold utf8DecodeCps at h ⊢
  simp only [utf8DecodeAux, e0, e1, if_false, if_pos (And.intro h0 h0b), ite_false,
    if_pos (And.intro h1 h1b), if_pos (And.intro h2 h2b)]
  rw [if_neg (by omega), if_pos (Nat.le_refl 1), hn, if_pos (by omega), h]
  rfl

/-- Decoding one four-byte sequence. -/
theorem utf8DecodeCps_cons4 {b0 b1 b2 b3 : Nat} {bs cps : List Nat} {n : Nat}
    (h0 : 240 ≤ b0) (h0b : b0 < 245)
    (h1 : 128 ≤ b1) (h1b : b1 < 192) (h2 : 128 ≤ b2) (h2b : b2 < 192)
    (h3 : 128 ≤ b3) (h3b : b3 < 192)
    (hn : (((b0 - 240) * 64 + (b1 - 128)) * 64 + (b2 - 128)) * 64 + (b3 - 128) = n)
    (hr : 65536 ≤ n) (hrb : n < 1114112)
    (h : utf8DecodeCps bs = some cps) :
    utf8DecodeCps (b0 :: b1 :: b2 :: b3 :: bs) = some (n :: cps) := by
  have e0 : ¬ b0 < 128 := by omega
  have e1 : ¬ (194 ≤ b0 ∧ b0 < 224) := by omega
  have e2 : ¬ (224 ≤ b0 ∧ b0 < 240) := by omega
  unfold utf8DecodeCps at h ⊢
  simp only [utf8DecodeAux, e0, e1, e2, if_false, if_pos (And.intro h0 h0b), ite_false,
    if_pos (And.intro h1 h1b), if_pos (And.intro h2 h2b), if_pos (And.intro h3 h3b)]
  rw [if_neg (by omega), if_neg (by omega), if_pos (Nat.le_refl 1), hn,
    if_pos (by omega), h]
  rfl

/-- Decoding the UTF-8 encoding of one character recovers the character's
code point (Python's strict codec round-trips `str.encode`). -/
theorem utf8DecodeCps_encodeCp (c : Char) {bs cps : List Nat}
    (h : utf8DecodeCps bs = some cps) :
    utf8DecodeCps (utf8EncodeCp c.toNat ++ bs) = some (c.toNat :: cps) := by
  have hv : c.toNat < 55296 ∨ (57344 ≤ c.toNat ∧ c.toNat < 1114112) := c.valid
  by_cases h1 : c.toNat < 128
  · have he : utf8EncodeCp c.toNat = [c.toNat] := by
      unfold utf8EncodeCp
      rw [if_pos h1]
    rw [he, List.cons_append, List.nil_append]
    exact utf8DecodeCps_cons1 h1 h
  · by_cases h2 : c.toNat < 2048
    · have he : utf8EncodeCp c.toNat = [192 + c.toNat / 64, 128 + c.toNat % 64] := by
        unfold utf8EncodeCp
        rw [if_neg h1, if_pos h2]
      rw [he, List.cons_append, List.cons_append, List.nil_append]
      refine utf8DecodeCps_cons2 ?_ ?_ ?_ ?_ ?_ ?_ ?_ h <;> omega
    · by_cases h3 : c.toNat < 65536
      · have he : utf8EncodeCp c.toNat =
            [224 + c.toNat / 4096, 128 + c.toNat / 64 % 64, 128 + c.toNat % 64] := by
          unfold utf8EncodeCp
          rw [if_neg h1, if_neg h2, if_pos h3]
        rw [he, List.cons_append, List.cons_append, List.cons_append, List.nil_append]
        refine utf8DecodeCps_cons3 ?_ ?_ ?_ ?_ ?_ ?_ ?_ ?_ ?_ ?_ h <;> omega
      · have he : utf8EncodeCp c.toNat =
            [240 + c.toNat / 262144, 128 + c.toNat / 4096 % 64,
             128 + c.toNat / 64 % 64, 128 + c.toNat % 64] := by
          unfold utf8EncodeCp
          rw [if_neg h1, if_neg h2, if_neg h3]
        rw [he, List.cons_append, List.cons_append, List.cons_append, List.cons_append,
          List.nil_append]
        refine utf8DecodeCps_cons4 ?_ ?_ ?_ ?_ ?_ ?_ ?_ ?_ ?_ ?_ ?_ h <;> omega

/-- Round trip over a character list. -/
theorem utf8DecodeCps_encode_list (cs : List Char) :
    utf8DecodeCps ((cs.map (fun c => utf8EncodeCp c.toNat)).flatten) =
      some (cs.map Char.toNat) := by
  induction cs with
  | nil => rfl
  | cons c rest ih =>
    simpa [List.map_cons, List.flatten_cons] using utf8DecodeCps_encodeCp c ih

/-- Python's strict `bytes.decode("utf-8")` inverts `str.encode("utf-8")`. -/
theorem utf8DecodeStr_utf8Encode (s : String) : utf8DecodeStr (utf8Encode s) = some s := by
  have hmap : ∀ cs : List Char, (cs.map Char.toNat).map Char.ofNat = cs := by
    intro cs
    induction cs with
    | nil => rfl
    | cons c rest ih => simp [ih, Char.ofNat_toNat]
  unfold utf8DecodeStr utf8Encode
  rw [utf8DecodeCps_encode_list]
  simp [hmap]

/-- `urlencode` renders related scalars identically: quoting a text value
goes through its UTF-8 bytes, so a byte-string value equal to that
encoding quotes to the very same string. -/
theorem scalarQuote_rel {a b : Scalar} (h : ScalarRel a b) :
    scalarQuote a = scalarQuote b := by
  cases h with
  | refl v => rfl
  | bytes s => rfl

/-- Top-level normalization respects the replacement relation: both sides
fail together, and when they succeed the entry contributes the same
encoded `key=value` items. -/
theorem decodeVal_rel (k : String) {v w : PVal} (h : PValRel v w) :
    (decodeVal v).map (fun v1 => (expandEntry (k, v1)).map pairString) =
      (decodeVal w).map (fun w1 => (expandEntry (k, w1)).map pairString) := by
  cases h with
  | none => rfl
  | scalar hs =>
    cases hs with
    | refl v => rfl
    | bytes s => simp [decodeVal, utf8DecodeStr_utf8Encode]
  | seq hf =>
    simp only [decodeVal, Option.map_some', expandEntry, List.map_map]
    congr 1
    induction hf with
    | nil => rfl
    | cons ha _ ih =>
      simp only [List.map_cons, List.cons.injEq]
      exact ⟨by simp [pairString, scalarQuote_rel ha], ih⟩

/-- The list of encoded `key=value` items is invariant under replacing
byte-string values by their decoded text equivalents. -/
theorem queryStrings_rel {p q : List (String × PVal)} (h : ParamsRel p q) :
    queryStrings p = queryStrings q := by
  induction h with
  | nil => rfl
  | @cons x y l1 l2 hab htail ih =>
    obtain ⟨k, v⟩ := x
    obtain ⟨k2, w⟩ := y
    obtain ⟨hk, hvw⟩ := hab
    dsimp only at hk
    subst hk
    have hd := decodeVal_rel k hvw
    unfold queryStrings at ih ⊢
    cases hdv : decodeVal v with
    | none =>
      rw [hdv] at hd
      cases hdw : decodeVal w with
      | none => simp [normalizeParams, hdv, hdw]
      | some w1 => rw [hdw] at hd; simp at hd
    | some v1 =>
      rw [hdv] at hd
      cases hdw : decodeVal w with
      | none => rw [hdw] at hd; simp at hd
      | some w1 =>
        rw [hdw] at hd
        simp only [Option.map_some', Option.some.injEq] at hd
        cases hn1 : normalizeParams l1 with
        | none =>
          rw [hn1] at ih
          cases hn2 : normalizeParams l2 with
          | none => simp [normalizeParams, hdv, hdw, hn1, hn2]
          | some r2 => rw [hn2] at ih; simp at ih
        | some r1 =>
          rw [hn1] at ih
          cases hn2 : normalizeParams l2 with
          | none => rw [hn2] at ih; simp at ih
          | some r2 =>
            rw [hn2] at ih
            simp only [Option.map_some', Option.some.injEq] at ih
            simp [normalizeParams, hdv, hdw, hn1, hn2, encodeParameters,
              List.map_append, hd, ih]

/-- The produced query string is the joined item list. -/
theorem queryOutput_eq_strings (p : List (String × PVal)) :
    queryOutput p = (queryStrings p).map (String.intercalate "&") := by
  unfold queryOutput queryStrings urlencode
  cases normalizeParams p with
  | none => rfl
  | some q => rfl

/-- Every pair contributed by one entry carries that entry's key. -/
theorem key_of_mem_expandEntry {k : String} {v : PVal} {q : String × Scalar}
    (h : q ∈ expandEntry (k, v)) : q.1 = k := by
  cases v with
  | none => cases h
  | scalar s =>
    simp only [expandEntry, List.mem_singleton] at h
    rw [h]
  | seq items =>
    simp only [expandEntry, List.mem_map] at h
    obtain ⟨it, _, hq⟩ := h
    rw [← hq]

/-- Every key in the encoded pair list is a key of the mapping. -/
theorem key_mem_of_mem_encodeParameters {p : List (String × PVal)} {q : String × Scalar}
    (h : q ∈ encodeParameters p) : q.1 ∈ p.map Prod.fst := by
  induction p with
  | nil => cases h
  | cons e rest ih =>
    obtain ⟨k, v⟩ := e
    simp only [encodeParameters, List.mem_append] at h
    rcases h with h | h
    · simp [key_of_mem_expandEntry h]
    · simp [ih h]

/-- Keyed variant of C5 used to discharge the Boolean statement: under
unique keys, a key mapped to `None` contributes no pair at all. -/
theorem encodeParameters_key_ne {p : List (String × PVal)} {k : String}
    (hmem : (k, PVal.none) ∈ p) (hnd : (p.map Prod.fst).Nodup) :
    ∀ q ∈ encodeParameters p, q.1 ≠ k := by
  induction p with
  | nil => cases hmem
  | cons e rest ih =>
    obtain ⟨k1, v1⟩ := e
    simp only [List.map_cons, List.nodup_cons] at hnd
    intro q hq
    simp only [encodeParameters, List.mem_append] at hq
    rcases List.mem_cons.mp hmem with he | hmem2
    · rw [Prod.mk.injEq] at he
      obtain ⟨hk1, hv1⟩ := he
      subst hk1
      subst hv1
      rcases hq with hq | hq
      · simp [expandEntry] at hq
      · intro hqk
        exact hnd.1 (hqk ▸ key_mem_of_mem_encodeParameters hq)
    · rcases hq with hq | hq
      · intro hqk
        have h1 : q.1 = k1 := key_of_mem_expandEntry hq
        have hk : k ∈ rest.map Prod.fst :=
          List.mem_map.mpr ⟨(k, PVal.none), hmem2, rfl⟩
        rw [hqk] at h1
        exact hnd.1 (h1 ▸ hk)
      · exact ih hmem2 hnd.2 q hq

/-! ## The claims -/

/-- C1: for every call whose transport response is ok and whose body
parses as JSON, if the parsed value — after substituting the first
element when it is a non-empty array — is an object whose `result` field
equals `"error"` or which contains an `error` key, then `request_url`
fails with an `ApiError` carrying that object's `errors` field when
present and the generic unknown-error marker otherwise. -/
theorem request_embedded_error (url method : String) (params : List (String × PVal))
    (headers : List (String × String)) (timeout : Nat) (transport : Send → Response)
    (ps : List (String × PVal)) (sd : Send) (v : JVal) (fields : List (String × JVal))
    (hn : normalizeParams params = some ps)
    (hd : dispatch url method ps headers timeout = some sd)
    (hok : (transport sd).ok = true)
    (hp : (transport sd).parsed = some v)
    (hobj : firstIfList v = JVal.obj fields)
    (herr : (resultIsError fields || hasErrorKey fields) = true) :
    request_url url method params headers timeout transport =
      ([sd], Except.error (Err.apiErrorEmbedded (getErrors fields))) := by
  simp [request_url, hn, hd, handleResponse, hok, parse_data, hp, check_api_error,
    hobj, herr]

/-- C1 witness: a 200 response with body
`{"result": "error", "errors": ["bad id"]}` yields the embedded
`ApiError` with content `["bad id"]`, never a successful Outcome. -/
theorem request_embedded_error_witness :
    request_url "https://api.example/manga" "GET" [] [] 10
        (fun _ => ⟨true, "x",
          some (JVal.obj
            [("result", JVal.str "error"), ("errors", JVal.arr [JVal.str "bad id"])])⟩) =
      ([Send.get "https://api.example/manga" [] 10],
        Except.error (Err.apiErrorEmbedded (JVal.arr [JVal.str "bad id"]))) :=
  request_embedded_error "https://api.example/manga" "GET" [] [] 10
    (fun _ => ⟨true, "x",
      some (JVal.obj
        [("result", JVal.str "error"), ("errors", JVal.arr [JVal.str "bad id"])])⟩)
    [] (Send.get "https://api.example/manga" [] 10)
    (JVal.obj [("result", JVal.str "error"), ("errors", JVal.arr [JVal.str "bad id"])])
    [("result", JVal.str "error"), ("errors", JVal.arr [JVal.str "bad id"])]
    rfl rfl rfl rfl rfl rfl

/-- C2: for every call whose transport response is not ok, `request_url`
fails with an `ApiError` built from the full response object, whatever
the body holds and whether or not it would parse as JSON (the result is
the same for every `content`/`parsed` value of the response). -/
theorem request_http_error (url method : String) (params : List (String × PVal))
    (headers : List (String × String)) (timeout : Nat) (transport : Send → Response)
    (ps : List (String × PVal)) (sd : Send)
    (hn : normalizeParams params = some ps)
    (hd : dispatch url method ps headers timeout = some sd)
    (hok : (transport sd).ok = false) :
    request_url url method params headers timeout transport =
      ([sd], Except.error (Err.apiErrorResponse (transport sd))) := by
  simp [request_url, hn, hd, handleResponse, hok]

/-- C2 witness: a 404 response (ok is false) with a non-JSON body fails
with the status-based `ApiError` carrying the whole response. -/
theorem request_http_error_witness :
    request_url "https://api.example/manga/404" "GET" [] [] 10
        (fun _ => ⟨false, "Not Found", none⟩) =
      ([Send.get "https://api.example/manga/404" [] 10],
        Except.error (Err.apiErrorResponse ⟨false, "Not Found", none⟩)) :=
  request_http_error "https://api.example/manga/404" "GET" [] [] 10
    (fun _ => ⟨false, "Not Found", none⟩)
    [] (Send.get "https://api.example/manga/404" [] 10) rfl rfl rfl

/-- C3 counterexample: with method `"patch"` and an undecodable
byte-string parameter value, the call fails before the method is ever
checked — with the `UnicodeDecodeError` of line 50, not with the
invalid-method `ValueError` the claim promises (though still with no
network I/O). -/
theorem invalid_method_bytes_cex :
    (request_url "u" "patch" [("k", PVal.scalar (Scalar.bytes [255]))] [] 10
        (fun _ => ⟨true, "", none⟩)).2 = Except.error Err.unicodeDecode ∧
    isInvalidMethodErr
      (request_url "u" "patch" [("k", PVal.scalar (Scalar.bytes [255]))] [] 10
        (fun _ => ⟨true, "", none⟩)).2 = false :=
  ⟨rfl, rfl⟩

/-- C3 (amended): for every call whose byte-string parameter values (if
any) decode as UTF-8 — in particular whenever no byte-string parameter
is present — and whose method, compared case-insensitively, is none of
GET, POST, PUT, DELETE, `request_url` fails with the invalid-method
error and performs no network I/O (the send trace is empty).  When an
undecodable byte-string parameter is present the call instead fails
with the decode error of line 50, still without any send. -/
theorem invalid_method_no_send (url method : String) (params : List (String × PVal))
    (headers : List (String × String)) (timeout : Nat) (transport : Send → Response)
    (ps : List (String × PVal))
    (hn : normalizeParams params = some ps)
    (h1 : pyUpper method ≠ "GET") (h2 : pyUpper method ≠ "POST")
    (h3 : pyUpper method ≠ "DELETE") (h4 : pyUpper method ≠ "PUT") :
    request_url url method params headers timeout transport =
      ([], Except.error (Err.invalidMethod (pyUpper method))) := by
  simp [request_url, hn, dispatch, h1, h2, h3, h4]

/-- C3 witness: `"patch"` with no parameters fails with the
invalid-method error for `"PATCH"` and issues no send. -/
theorem invalid_method_no_send_witness :
    request_url "u" "patch" [] [] 10 (fun _ => ⟨true, "", none⟩) =
      ([], Except.error (Err.invalidMethod "PATCH")) :=
  invalid_method_no_send "u" "patch" [] [] 10 (fun _ => ⟨true, "", none⟩) []
    rfl (by decide) (by decide) (by decide) (by decide)

/-- C4: for every call whose transport response is ok but whose body is
not valid JSON, `request_url` returns the body's decoded text unchanged
as a text Outcome. -/
theorem request_text_fallback (url method : String) (params : List (String × PVal))
    (headers : List (String × String)) (timeout : Nat) (transport : Send → Response)
    (ps : List (String × PVal)) (sd : Send)
    (hn : normalizeParams params = some ps)
    (hd : dispatch url method ps headers timeout = some sd)
    (hok : (transport sd).ok = true)
    (hp : (transport sd).parsed = none) :
    request_url url method params headers timeout transport =
      ([sd], Except.ok (Outcome.text (transport sd).content)) := by
  simp [request_url, hn, hd, handleResponse, hok, parse_data, hp]

/-- C4 witness: a 200 response with body `pong` yields the text Outcome
`"pong"`. -/
theorem request_text_fallback_witness :
    request_url "https://api.example/ping" "GET" [] [] 10
        (fun _ => ⟨true, "pong", none⟩) =
      ([Send.get "https://api.example/ping" [] 10],
        Except.ok (Outcome.text "pong")) :=
  request_text_fallback "https://api.example/ping" "GET" [] [] 10
    (fun _ => ⟨true, "pong", none⟩)
    [] (Send.get "https://api.example/ping" [] 10) rfl rfl rfl rfl

/-- C5: for every parameter mapping (unique keys, as in a Python dict)
containing a key mapped to `None`, the encoded pair list contains no
pair for that key at all. -/
theorem null_param_key_absent {p : List (String × PVal)} {k : String}
    (hmem : (k, PVal.none) ∈ p) (hnd : (p.map Prod.fst).Nodup) :
    (encodeParameters p).all (fun q => q.1 != k) = true := by
  rw [List.all_eq_true]
  intro q hq
  exact bne_iff_ne.mpr (encodeParameters_key_ne hmem hnd q hq)

/-- C5 witness: in `\x7b"a": "1", "k": None\x7d` the key `k` is absent
from every encoded pair. -/
theorem null_param_key_absent_witness :
    (encodeParameters [("a", PVal.scalar (Scalar.str "1")), ("k", PVal.none)]).all
      (fun q => q.1 != "k") = true :=
  null_param_key_absent (by decide) (by decide)

/-- C6: a sequence value `[a, b, c]` under key `k` expands to exactly the
pairs `(k, a), (k, b), (k, c)` in that order, in the mapping's iteration
position. -/
theorem seq_param_expands_in_order (p1 p2 : List (String × PVal)) (k : String)
    (a b c : Scalar) :
    encodeParameters (p1 ++ (k, PVal.seq [a, b, c]) :: p2) =
      encodeParameters p1 ++ (k, a) :: (k, b) :: (k, c) :: encodeParameters p2 := by
  induction p1 with
  | nil => simp [encodeParameters, expandEntry]
  | cons e rest ih => simp [encodeParameters, ih]

/-- C7: replacing any byte-string parameter value (top-level or inside a
sequence value) by its UTF-8-decoded text equivalent leaves the encoded
query string unchanged. -/
theorem bytes_params_encode_same {p q : List (String × PVal)} (h : ParamsRel p q) :
    queryOutput p = queryOutput q := by
  rw [queryOutput_eq_strings, queryOutput_eq_strings, queryStrings_rel h]

/-- C7 witness: a byte-string inside a sequence value and a top-level
byte-string value both encode exactly as their decoded text. -/
theorem bytes_params_encode_same_witness :
    queryOutput [("ids", PVal.seq [Scalar.bytes (utf8Encode "café"), Scalar.str "x"]),
        ("name", PVal.scalar (Scalar.bytes (utf8Encode "café")))] =
      queryOutput [("ids", PVal.seq [Scalar.str "café", Scalar.str "x"]),
        ("name", PVal.scalar (Scalar.str "café"))] :=
  bytes_params_encode_same
    (List.Forall₂.cons
      ⟨rfl, PValRel.seq (List.Forall₂.cons (ScalarRel.bytes "café")
        (List.Forall₂.cons (ScalarRel.refl (Scalar.str "x")) List.Forall₂.nil))⟩
      (List.Forall₂.cons ⟨rfl, PValRel.scalar (ScalarRel.bytes "café")⟩
        List.Forall₂.nil))

/-- C8 counterexample: a GET call whose mapping is non-empty but consists
only of a `None` value sends `url + "?"`, not the unmodified URL —
`__build_url` tests the dict, not the encoded pair list. -/
theorem all_null_params_trailing_sep_cex :
    (request_url "u" "GET" [("k", PVal.none)] [] 10
        (fun _ => ⟨true, "", none⟩)).1 = [Send.get "u?" [] 10] ∧
    "u?" ≠ "u" :=
  ⟨rfl, by decide⟩

/-- C8 (amended): for a GET call the URL is used unmodified exactly when
the parameter mapping itself is empty; when the mapping is non-empty but
every entry is skipped (for example all values are `None`), the sent URL
is the original URL with a trailing `?` and an empty query. -/
theorem empty_params_url (url : String) :
    buildUrl url [] = url ∧
    (∀ (headers : List (String × String)) (timeout : Nat) (transport : Send → Response),
      (request_url url "GET" [] headers timeout transport).1 =
        [Send.get url headers timeout]) ∧
    (∀ p : List (String × PVal), p ≠ [] → encodeParameters p = [] →
      buildUrl url p = url ++ "?") := by
  refine ⟨rfl, fun headers timeout transport => rfl, fun p hne he => ?_⟩
  cases p with
  | nil => exact absurd rfl hne
  | cons e rest =>
    unfold buildUrl
    rw [if_neg (by simp), he]
    rw [show urlencode [] = "" from rfl]
    exact String.append_empty (url ++ "?")

/-- C8 witness: the empty mapping leaves `"u"` unmodified while the
all-`None` mapping produces `"u" ++ "?"`. -/
theorem empty_params_url_witness :
    buildUrl "u" [] = "u" ∧
    (request_url "u" "GET" [] [] 10 (fun _ => ⟨true, "", none⟩)).1 =
      [Send.get "u" [] 10] ∧
    buildUrl "u" [("k", PVal.none)] = "u" ++ "?" :=
  ⟨(empty_params_url "u").1,
   (empty_params_url "u").2.1 [] 10 (fun _ => ⟨true, "", none⟩),
   (empty_params_url "u").2.2 [("k", PVal.none)] (by decide) rfl⟩

/-- C9: the session is created lazily on first use with one adapter —
pool_connections 100, pool_maxsize 100, max_retries 3, pool_block true —
mounted identically for the http and https schemes, and every subsequent
accessor call returns that very session, leaving the stored state
unchanged. -/
theorem session_pool_singleton :
    (∀ fresh : Nat,
      _get_session none fresh = (newSession fresh, some (newSession fresh)) ∧
      (newSession fresh).mounts =
        [("http://", HTTPAdapter.mk 100 100 3 true),
         ("https://", HTTPAdapter.mk 100 100 3 true)]) ∧
    (∀ (s : Session) (fresh : Nat), _get_session (some s) fresh = (s, some s)) :=
  ⟨fun fresh => ⟨rfl, rfl⟩, fun s fresh => rfl⟩

/-- C10: the embedded-error inspection accepts every scalar JSON value
(neither object nor array), and whenever it does not raise, the entire
parsed JSON value is returned unmodified as the structured Outcome. -/
theorem scalar_payload_passthrough :
    (∀ v : JVal, isScalar v = true → check_api_error v = none) ∧
    (∀ (url method : String) (params : List (String × PVal))
        (headers : List (String × String)) (timeout : Nat)
        (transport : Send → Response)
        (ps : List (String × PVal)) (sd : Send) (v : JVal),
      normalizeParams params = some ps →
      dispatch url method ps headers timeout = some sd →
      (transport sd).ok = true →
      (transport sd).parsed = some v →
      check_api_error v = none →
      request_url url method params headers timeout transport =
        ([sd], Except.ok (Outcome.structured v))) := by
  constructor
  · intro v hv
    cases v with
    | null => rfl
    | bool b => rfl
    | num n => rfl
    | str s => rfl
    | arr items => simp [isScalar] at hv
    | obj fields => simp [isScalar] at hv
  · intro url method params headers timeout transport ps sd v hn hd hok hp hchk
    simp [request_url, hn, hd, handleResponse, hok, parse_data, hp, hchk]

/-- C10 witness: a 200 response whose body parses to the scalar `5`
passes the inspection and is returned unchanged. -/
theorem scalar_payload_passthrough_witness :
    check_api_error (JVal.num 5) = none ∧
    request_url "https://api.example/ping" "GET" [] [] 10
        (fun _ => ⟨true, "5", some (JVal.num 5)⟩) =
      ([Send.get "https://api.example/ping" [] 10],
        Except.ok (Outcome.structured (JVal.num 5))) :=
  ⟨scalar_payload_passthrough.1 (JVal.num 5) rfl,
   scalar_payload_passthrough.2 "https://api.example/ping" "GET" [] [] 10
     (fun _ => ⟨true, "5", some (JVal.num 5)⟩)
     [] (Send.get "https://api.example/ping" [] 10) (JVal.num 5)
     rfl rfl rfl rfl rfl⟩

end Mangadex
